import Mathlib

/-!
Verification of the snake-game repository's core logic.

The repository contains three self-contained variants of the game:
* `game.js` — smooth pixel movement (`GameJS` namespace below),
* the enhanced grid variant (`app.js`, obstacles / wrap-around; `App` namespace),
* the cell-quantized smooth variant (`Smooth` namespace).

JavaScript numbers are modelled as exact rationals (`ℚ`) where the code does
real-valued arithmetic and as integers (`ℤ`) where only integers occur.
Comparisons of the form `distance(a,b) < c` (with `distance` using a square
root) are translated to the equivalent squared form for `c ≥ 0`.
`Math.random()` is modelled by explicit streams of draws in `[0,1)`.
`localStorage` is modelled by an `Option String` cell carried in the state.
-/

/-- Grid cell position, the `{x, y}` pairs of the two grid variants. -/
structure Pos where
  x : ℤ
  y : ℤ
deriving DecidableEq

/-- Negation of a direction vector, used to state the no-reverse rule. -/
def Pos.neg (p : Pos) : Pos := ⟨-p.x, -p.y⟩

/-- randInt(min, max) = Math.floor(Math.random() * (max - min + 1)) + min,
with the `Math.random()` draw `r` passed explicitly. -/
def randIntJs (r : ℚ) (lo hi : ℤ) : ℤ :=
  ⌊r * ((hi : ℚ) - (lo : ℚ) + 1)⌋ + lo

/-- Value of the digit list parsed in base 10, `none` when no digit is present
(this is the JS `NaN` outcome of `parseInt`). -/
def digitsToNat (l : List Char) : Option ℕ :=
  match l with
  | [] => none
  | _ => some (l.foldl (fun acc c => acc * 10 + (c.toNat - 48)) 0)

/-- JS `parseInt(s, 10)`: skip leading whitespace, optional sign, then the
longest prefix of decimal digits; `none` models the `NaN` result. -/
def parseIntJs (s : String) : Option ℤ :=
  let l := s.data.dropWhile Char.isWhitespace
  match l with
  | '-' :: rest => (digitsToNat (rest.takeWhile Char.isDigit)).map (fun n => -(n : ℤ))
  | '+' :: rest => (digitsToNat (rest.takeWhile Char.isDigit)).map (fun n => (n : ℤ))
  | _ => (digitsToNat (l.takeWhile Char.isDigit)).map (fun n => (n : ℤ))

/-- Decimal digit character for `d < 10`. -/
def digitChar (d : ℕ) : Char :=
  match d with
  | 0 => '0' | 1 => '1' | 2 => '2' | 3 => '3' | 4 => '4'
  | 5 => '5' | 6 => '6' | 7 => '7' | 8 => '8' | _ => '9'

/-- Little-endian decimal digits of a natural number. -/
def natDigitsRev (n : ℕ) : List Char :=
  if n < 10 then [digitChar n]
  else digitChar (n % 10) :: natDigitsRev (n / 10)
decreasing_by exact Nat.div_lt_self (by omega) (by omega)

/-- JS `String(n)` on an integer: its decimal representation. -/
def intToString (n : ℤ) : String :=
  if n < 0 then String.mk ('-' :: (natDigitsRev n.natAbs).reverse)
  else String.mk (natDigitsRev n.toNat).reverse

/-- JS `a || b` for a possibly missing string (`null` and `""` are falsy). -/
def jsOrString (v : Option String) (d : String) : String :=
  match v with
  | none => d
  | some str => if str = "" then d else str

namespace GameJS

/-- A food item of game.js: grid-aligned pixel position, color and points
(CONFIG.foodTypes entry chosen at spawn). -/
structure Food where
  x : ℚ
  y : ℚ
  color : String
  points : ℤ
deriving DecidableEq

/-- CONFIG.foodTypes (game.js:21-26): color and point value of each type. -/
def foodTypes : List (String × ℤ) :=
  [("#ff4d4d", 1), ("#4caf50", 3), ("#2196f3", 5), ("#f0ad4e", 10)]

/-- The mutable globals of game.js that the core logic reads and writes.
`stored` is the localStorage cell under CONFIG.localStorageKey. -/
structure GState where
  canvasWidth : ℚ
  canvasHeight : ℚ
  running : Bool
  paused : Bool
  gameOver : Bool
  lastTimestamp : ℚ
  score : ℤ
  highScore : ℤ
  headX : ℚ
  headY : ℚ
  dirX : ℚ
  dirY : ℚ
  length : ℤ
  segments : List (ℚ × ℚ)
  food : Option Food
  pendingDir : Option (ℚ × ℚ)
  stored : Option String
deriving DecidableEq

/-- distance(a, b) < c (game.js:66), stated on squared distances; equivalent
to the source's square-root form for the positive thresholds used. -/
def distSqLt (a b : ℚ × ℚ) (c : ℚ) : Bool :=
  decide ((a.1 - b.1) ^ 2 + (a.2 - b.2) ^ 2 < c ^ 2)

/-- distance(a, b) ≥ c, squared form, used by the body-sampling step. -/
def distSqGe (a b : ℚ × ℚ) (c : ℚ) : Bool :=
  decide (c ^ 2 ≤ (a.1 - b.1) ^ 2 + (a.2 - b.2) ^ 2)

/-- One spawnFood placement attempt (game.js:169-175): a cell center of the
margin-inset grid plus a food type uniformly drawn from foodTypes, from one
triple of Math.random() draws. -/
def foodCandidate (cW cH : ℚ) (r : ℚ × ℚ × ℚ) : Food :=
  let margin : ℚ := 22
  let cols : ℤ := ⌊(cW - margin * 2) / 22⌋
  let rows : ℤ := ⌊(cH - margin * 2) / 22⌋
  let ty := foodTypes.getD (randIntJs r.2.2 0 3).toNat ("#ff4d4d", 1)
  { x := margin + (randIntJs r.1 0 (cols - 1) : ℚ) * 22 + 11,
    y := margin + (randIntJs r.2.1 0 (rows - 1) : ℚ) * 22 + 11,
    color := ty.1, points := ty.2 }

/-- spawnFood (game.js:167-180). The source retries by plain recursion with
no attempt counter and no base case; the model draws the i-th Math.random()
triple from the stream and carries an explicit recursion budget `fuel`: a
`none` result means every attempt within the budget was rejected, i.e. the
source recursion would still be running. -/
def spawnFoodFrom (rand : ℕ → ℚ × ℚ × ℚ) (segments : List (ℚ × ℚ))
    (cW cH : ℚ) : ℕ → ℕ → Option Food
  | _, 0 => none
  | i, fuel + 1 =>
    let f := foodCandidate cW cH (rand i)
    if segments.any (fun sg => distSqLt sg (f.x, f.y) (99 / 5)) then
      spawnFoodFrom rand segments cW cH (i + 1) fuel
    else some f

/-- setDirection(dx, dy) (game.js:184-191): reject the exact reverse of the
current direction, otherwise record the pending direction. There is no
check of the game state. -/
def setDirection (dx dy : ℚ) (s : GState) : GState :=
  if dx = -s.dirX ∧ dy = -s.dirY then s
  else { s with pendingDir := some (dx, dy) }

/-- togglePause (game.js:241-251): no-op when gameOver, otherwise flip
`paused`; when unpausing, lastTimestamp is reset to 0. -/
def togglePause (s : GState) : GState :=
  if s.gameOver then s
  else
    let p := !s.paused
    if p then { s with paused := p }
    else { s with paused := p, lastTimestamp := 0 }

/-- endGame (game.js:421-437): set gameOver, stop the loop, and persist the
high score when the current score beats it. -/
def endGame (s : GState) : GState :=
  let s1 := { s with gameOver := true, running := false, paused := true }
  if s1.score > s1.highScore then
    { s1 with highScore := s1.score, stored := some (intToString s1.score) }
  else s1

/-- Pending-direction consumption at the top of update (game.js:273-276):
the pending direction, if any, becomes the current one and is cleared. -/
def consumeDir (s : GState) : GState :=
  let dir := s.pendingDir.getD (s.dirX, s.dirY)
  { s with dirX := dir.1, dirY := dir.2, pendingDir := none }

/-- Head motion by CONFIG.speed · dt pixels (game.js:277-282). -/
def moveHead (dt : ℚ) (s : GState) : GState :=
  { s with headX := s.headX + s.dirX * (160 * dt),
           headY := s.headY + s.dirY * (160 * dt) }

/-- Body sampling and trimming (game.js:284-297): unshift a sample of the
head when it moved at least cellSize·0.85 from the last sample, then trim
the segment list to max(3, length + 2) entries (`while ... pop()`). -/
def sampleTrim (s : GState) : GState :=
  let segs :=
    if distSqGe (s.segments.headD (s.headX, s.headY)) (s.headX, s.headY) (187 / 10) then
      (s.headX, s.headY) :: s.segments
    else s.segments
  { s with segments := segs.take (max 3 (s.length + 2)).toNat }

/-- Food collision (game.js:299-313): when the head is within cellSize·0.9
of the food, add its points, grow by max(1, floor(points/1)), respawn the
food, and update and persist the high score in place when beaten. -/
def eatFood (rand : ℕ → ℚ × ℚ × ℚ) (fuel : ℕ) (s : GState) : GState :=
  match s.food with
  | some f =>
    if distSqLt (s.headX, s.headY) (f.x, f.y) (99 / 5) then
      let s1 := { s with score := s.score + f.points,
                         length := s.length + max 1 f.points }
      let s2 := { s1 with
        food := spawnFoodFrom rand s1.segments s1.canvasWidth s1.canvasHeight 0 fuel }
      if s2.score > s2.highScore then
        { s2 with highScore := s2.score, stored := some (intToString s2.score) }
      else s2
    else s
  | none => s

/-- Wall collision then self collision (game.js:315-333): outside the canvas
ends the game at once; otherwise the head is tested against every sampled
segment from index 4 on within the 14 px collision threshold. -/
def collide (s : GState) : GState :=
  if s.headX < 0 ∨ s.headY < 0 ∨
      s.headX > s.canvasWidth ∨ s.headY > s.canvasHeight then
    endGame s
  else if (s.segments.drop 4).any (fun sg => distSqLt (s.headX, s.headY) sg 14) then
    endGame s
  else s

/-- update(dt) (game.js:271-334), in source order: consume the pending
direction, move the head by speed·dt, sample a new front segment when far
enough from the previous sample, trim to the target length, eat food (score,
growth, respawn, in-place high-score update), then wall collision and
finally self-collision from segment index 4 on. `rands` feeds the spawnFood
retries of the eat branch, `fuel` bounds the modelled recursion depth. -/
def update (dt : ℚ) (rand : ℕ → ℚ × ℚ × ℚ) (fuel : ℕ) (s0 : GState) : GState :=
  collide (eatFood rand fuel (sampleTrim (moveHead dt (consumeDir s0))))

/-- highScore = parseInt(localStorage.getItem(key) || '0', 10)
(game.js:476 and game.js:145); a `none` result is the JS `NaN`. -/
def loadHighScore (stored : Option String) : Option ℤ :=
  parseIntJs (jsOrString stored "0")

end GameJS

namespace App

/-- The mutable globals of the enhanced variant (app.js). `width` and `rows`
mirror the grid-size globals (both 28 in the source); `stored` is the
localStorage cell under the key snake_high. -/
structure AState where
  width : ℤ
  rows : ℤ
  snake : List Pos
  dir : Pos
  nextDir : Pos
  apple : Option Pos
  obstacles : List Pos
  score : ℤ
  highScore : ℤ
  running : Bool
  paused : Bool
  allowInput : Bool
  stored : Option String
deriving DecidableEq

/-- One spawnApple placement attempt (app.js:267): a randInt cell kept off
the outer border, from one pair of Math.random() draws. -/
def appleCandidate (width rows : ℤ) (r : ℚ × ℚ) : Pos :=
  ⟨randIntJs r.1 1 (width - 2), randIntJs r.2 1 (rows - 2)⟩

/-- Retry loop of spawnApple (app.js:263-274), one Math.random() draw pair
per attempt taken from the stream at index i; `none` when every attempt
within the remaining budget hit the snake or an obstacle. -/
def spawnAppleFrom (rand : ℕ → ℚ × ℚ) (snake obstacles : List Pos)
    (width rows : ℤ) : ℕ → ℕ → Option Pos
  | _, 0 => none
  | i, fuel + 1 =>
    let p := appleCandidate width rows (rand i)
    if snake.contains p || obstacles.contains p then
      spawnAppleFrom rand snake obstacles width rows (i + 1) fuel
    else some p

/-- spawnApple (app.js:263-274): at most 500 attempts (`while(attempts < 500)`),
then `apple = null` on exhaustion. -/
def spawnApple (rand : ℕ → ℚ × ℚ) (snake obstacles : List Pos)
    (width rows : ℤ) : Option Pos :=
  spawnAppleFrom rand snake obstacles width rows 0 500

/-- maybeAddObstacle (app.js:296-304): with probability 0.08 try one
candidate cell; give up silently on any overlap with snake, apple or an
existing obstacle. -/
def maybeAddObstacle (rChance : ℚ) (oPos : ℚ × ℚ) (s : AState) : AState :=
  if rChance < 8 / 100 then
    let o : Pos := ⟨randIntJs oPos.1 1 (s.width - 2), randIntJs oPos.2 1 (s.rows - 2)⟩
    if s.snake.contains o then s
    else if s.apple = some o then s
    else if s.obstacles.contains o then s
    else { s with obstacles := s.obstacles ++ [o] }
  else s

/-- gameOver (app.js:474-489): stop the loop and persist the high score when
the final score beats it. -/
def gameOver (s : AState) : AState :=
  let s1 := { s with running := false, paused := false }
  if s1.score > s1.highScore then
    { s1 with highScore := s1.score, stored := some (intToString s1.score) }
  else s1

/-- The wrapped next head cell computed at the top of tick (app.js:310):
snake[0] plus the direction just taken from the buffer, wrapped with the JS
remainder (Int.tmod, which matches the sign-of-dividend JS `%`). -/
def nextHead (s : AState) (h : Pos) : Pos :=
  ⟨(h.x + s.nextDir.x + s.width).tmod s.width,
   (h.y + s.nextDir.y + s.rows).tmod s.rows⟩

/-- tick (app.js:307-338), in source order: dir := nextDir; wrap the next
head cell with the JS remainder; self-collision against every segment of
index > 0, then obstacle collision, both before the unshift; then unshift,
eat (score += 10, respawn apple, 25%-chance obstacle) or pop the tail;
finally re-enable buffered input. -/
def tick (appleRand : ℕ → ℚ × ℚ) (rEat rObs : ℚ) (oPos : ℚ × ℚ)
    (s : AState) : AState :=
  match s.snake with
  | [] => s
  | h :: rest =>
    let s1 := { s with dir := s.nextDir }
    let head : Pos := nextHead s h
    if rest.contains head then gameOver s1
    else if s1.obstacles.contains head then gameOver s1
    else
      let s2 := { s1 with snake := head :: s1.snake }
      let s3 :=
        if s2.apple = some head then
          let sa := { s2 with score := s2.score + 10 }
          let sb := { sa with
            apple := spawnApple appleRand sa.snake sa.obstacles sa.width sa.rows }
          if rEat < 1 / 4 then maybeAddObstacle rObs oPos sb else sb
        else { s2 with snake := s2.snake.dropLast }
      { s3 with allowInput := true }

/-- The four direction strings handled by the touch-button mapping. -/
inductive DirKey
  | up
  | down
  | left
  | right
deriving DecidableEq

/-- The `mapping` table inside applyDirection (app.js:536-538). -/
def mapping : DirKey → Pos
  | .up => ⟨0, -1⟩
  | .down => ⟨0, 1⟩
  | .left => ⟨-1, 0⟩
  | .right => ⟨1, 0⟩

/-- applyDirection(dirStr) (app.js:534-544): ignore input while allowInput is
false, reject the exact reverse of the current dir, otherwise buffer nextDir
and lock input until the next tick re-enables it. -/
def applyDirection (k : DirKey) (s : AState) : AState :=
  if !s.allowInput then s
  else
    let newDir := mapping k
    if newDir.x = -s.dir.x ∧ newDir.y = -s.dir.y then s
    else { s with nextDir := newDir, allowInput := false }

/-- togglePause (app.js:462-471): no-op when not running, otherwise flip
paused (the rest of the body only touches DOM styling). -/
def togglePause (s : AState) : AState :=
  if !s.running then s else { s with paused := !s.paused }

end App

namespace Smooth

/-- A food item of the cell-quantized variant: cell position, color, points. -/
structure SFood where
  x : ℤ
  y : ℤ
  color : String
  points : ℤ
deriving DecidableEq

/-- FOOD_TYPES (part_001:29-33): color and point value of each type. -/
def FOOD_TYPES : List (String × ℤ) :=
  [("#ff4d4d", 1), ("#ffd24d", 3), ("#4da6ff", 5)]

/-- pickFoodType() (part_001:88-96) with the cumulative FOOD_WEIGHTS
0.7, 0.92, 1.0, falling back to the first type. -/
def pickFoodType (r : ℚ) : String × ℤ :=
  if r ≤ 7 / 10 then ("#ff4d4d", 1)
  else if r ≤ 92 / 100 then ("#ffd24d", 3)
  else if r ≤ 1 then ("#4da6ff", 5)
  else ("#ff4d4d", 1)

/-- The mutable state of the cell-quantized variant (part_001). -/
structure SState where
  cols : ℤ
  rows : ℤ
  cellSize : ℤ
  headX : ℤ
  headY : ℤ
  headPx : ℚ
  headPy : ℚ
  dirX : ℤ
  dirY : ℤ
  pendingDir : Option (ℤ × ℤ)
  snake : List Pos
  snakeLength : ℤ
  headPrevCellX : ℤ
  headPrevCellY : ℤ
  food : Option SFood
  score : ℤ
  highScore : ℤ
  isRunning : Bool
  isGameOver : Bool
  speedMultiplier : ℚ
  stored : Option String
deriving DecidableEq

/-- One spawnFood placement attempt (part_001:124-125): a uniform cell from
one pair of Math.random() draws. -/
def foodCell (cols rows : ℤ) (r : ℚ × ℚ × ℚ) : Pos :=
  ⟨⌊r.1 * (cols : ℚ)⌋, ⌊r.2.1 * (rows : ℚ)⌋⟩

/-- Retry loop of spawnFood (part_001:120-134), one draw triple (fx draw,
fy draw, type draw) per attempt taken from the stream at index i; on
exhaustion of the budget the source places the default red food at (0, 0)
instead of leaving food absent. -/
def spawnFoodFrom (rand : ℕ → ℚ × ℚ × ℚ) (snake : List Pos) (head : Pos)
    (cols rows : ℤ) : ℕ → ℕ → SFood
  | _, 0 => { x := 0, y := 0, color := "#ff4d4d", points := 1 }
  | i, fuel + 1 =>
    let p := foodCell cols rows (rand i)
    if ¬(snake.contains p) ∧ ¬(head.x = p.x ∧ head.y = p.y) then
      let ty := pickFoodType (rand i).2.2
      { x := p.x, y := p.y, color := ty.1, points := ty.2 }
    else spawnFoodFrom rand snake head cols rows (i + 1) fuel

/-- spawnFood (part_001:120-134): the loop runs `while (attempts < 200)`,
so exactly 200 attempts are available. -/
def spawnFood (rand : ℕ → ℚ × ℚ × ℚ) (snake : List Pos) (head : Pos)
    (cols rows : ℤ) : SFood :=
  spawnFoodFrom rand snake head cols rows 0 200

/-- setDirection (part_001:167-173): a no-op unless the game is running and
not over; also rejects the exact 180 degree reversal. -/
def setDirection (nx ny : ℤ) (s : SState) : SState :=
  if s.isGameOver then s
  else if !s.isRunning then s
  else if nx = -s.dirX ∧ ny = -s.dirY then s
  else { s with pendingDir := some (nx, ny) }

/-- triggerGameOver (part_001:262-281): stop, mark game over, persist the
high score when beaten. -/
def triggerGameOver (s : SState) : SState :=
  let s1 := { s with isRunning := false, isGameOver := true }
  if s1.score > s1.highScore then
    { s1 with highScore := s1.score, stored := some (intToString s1.score) }
  else s1

/-- The direction update(dt) actually applies this frame (part_001:313-318):
the pending one unless it is the exact reversal, else the current one.
In either case pendingDir is cleared. -/
def effDir (s : SState) : ℤ × ℤ :=
  match s.pendingDir with
  | some p => if p.1 = -s.dirX ∧ p.2 = -s.dirY then (s.dirX, s.dirY) else p
  | none => (s.dirX, s.dirY)

/-- The cell the head pixel position quantizes to after this frame's motion
(part_001:321-329); JS Math.round is round-half-up, matched by Lean's round
on ℚ. -/
def nextCell (dt : ℚ) (s : SState) : ℤ × ℤ :=
  let speed : ℚ := 6 * s.speedMultiplier * (s.cellSize : ℚ)
  (round ((s.headPx + ((effDir s).1 : ℚ) * speed * dt) / (s.cellSize : ℚ)),
   round ((s.headPy + ((effDir s).2 : ℚ) * speed * dt) / (s.cellSize : ℚ)))

/-- Pending-direction consumption (part_001:313-318): the applied direction
is `effDir` and pendingDir is cleared. -/
def applyPendingDir (s : SState) : SState :=
  let d := effDir s
  { s with dirX := d.1, dirY := d.2, pendingDir := none }

/-- Pixel integration of the head (part_001:320-324), using the already
consumed direction. -/
def integrate (dt : ℚ) (s : SState) : SState :=
  let speed : ℚ := 6 * s.speedMultiplier * (s.cellSize : ℚ)
  { s with headPx := s.headPx + (s.dirX : ℚ) * speed * dt,
           headPy := s.headPy + (s.dirY : ℚ) * speed * dt }

/-- Food check on entering a cell (part_001:352-362): exact cell equality
with the head; on a hit add points, grow by max(1, points), speed up, and
respawn the food (the new food is always assigned, part_001 never leaves it
absent here). -/
def eatCell (rand : ℕ → ℚ × ℚ × ℚ) (s : SState) : SState :=
  match s.food with
  | some f =>
    if f.x = s.headX ∧ f.y = s.headY then
      let s1 := { s with score := s.score + f.points,
                         snakeLength := s.snakeLength + max 1 f.points }
      let s2 := { s1 with speedMultiplier := 1 + min 1 ((s1.score : ℚ) / 50) }
      { s2 with food := some (spawnFood rand s2.snake
          ⟨s2.headX, s2.headY⟩ s2.cols s2.rows) }
    else s
  | none => s

/-- Everything update does when the quantized cell changed
(part_001:332-368): record the new cell as head and headPrevCell, wall
collision, self-collision against the whole current body, unshift the new
head cell, eat, then trim the body to snakeLength. -/
def enterCell (c : ℤ × ℤ) (rand : ℕ → ℚ × ℚ × ℚ) (s : SState) : SState :=
  let s3 := { s with headPrevCellX := c.1, headPrevCellY := c.2,
                     headX := c.1, headY := c.2 }
  if c.1 < 0 ∨ c.1 ≥ s3.cols ∨ c.2 < 0 ∨ c.2 ≥ s3.rows then triggerGameOver s3
  else if s3.snake.contains ⟨c.1, c.2⟩ then triggerGameOver s3
  else
    let s4 := eatCell rand { s3 with snake := ⟨c.1, c.2⟩ :: s3.snake }
    { s4 with snake := s4.snake.take s4.snakeLength.toNat }

/-- update(dt) (part_001:310-369), in source order: nothing when the game is
over; consume pendingDir unless it reverses, integrate the pixel position,
quantize to a cell with JS Math.round; nothing further when the cell did not
change, else the `enterCell` steps. -/
def update (dt : ℚ) (rand : ℕ → ℚ × ℚ × ℚ) (s0 : SState) : SState :=
  if s0.isGameOver then s0
  else
    let c := nextCell dt s0
    let s2 := integrate dt (applyPendingDir s0)
    if c.1 = s2.headPrevCellX ∧ c.2 = s2.headPrevCellY then s2
    else enterCell c rand s2

/-- highScore = parseInt(localStorage.getItem(KEY) || '0', 10) || 0
(part_001:47). The trailing JS `|| 0` maps both NaN and 0 to 0, which is
exactly `Option.getD 0` on the NaN-as-none parse result. -/
def loadHighScore (stored : Option String) : ℤ :=
  (parseIntJs (jsOrString stored "0")).getD 0

end Smooth

/-- Fold of a same-tick sequence of setDirection proposals (game.js): every
keyboard or touch input between two ticks goes through setDirection. -/
def proposeList (props : List (ℚ × ℚ)) (s : GameJS.GState) : GameJS.GState :=
  props.foldl (fun st p => GameJS.setDirection p.1 p.2 st) s

/-- The direction the next update(dt) call will apply (game.js:273-276):
the pending one if any, else the unchanged current one. -/
def appliedNext (s : GameJS.GState) : ℚ × ℚ :=
  s.pendingDir.getD (s.dirX, s.dirY)

/-- Fold of a same-tick sequence of touch inputs through applyDirection
(app.js). -/
def applyKeys (keys : List App.DirKey) (s : App.AState) : App.AState :=
  keys.foldl (fun st k => App.applyDirection k st) s

/-- The head cell of the snake, when there is one, lies inside the wrapped
grid [0,width) × [0,rows). -/
def headInRange (s : App.AState) : Prop :=
  ∀ p ∈ s.snake.head?, 0 ≤ p.x ∧ p.x < s.width ∧ 0 ≤ p.y ∧ p.y < s.rows

/-- A game.js state sitting idle: not running, paused, not game over, no
pending direction. -/
def idleG : GameJS.GState :=
  { canvasWidth := 800, canvasHeight := 600, running := false, paused := true,
    gameOver := false, lastTimestamp := 0, score := 0, highScore := 0,
    headX := 400, headY := 300, dirX := 1, dirY := 0, length := 5,
    segments := [], food := none, pendingDir := none, stored := none }

/-- A game.js state after a game over. -/
def overG : GameJS.GState :=
  { canvasWidth := 800, canvasHeight := 600, running := false, paused := true,
    gameOver := true, lastTimestamp := 0, score := 7, highScore := 7,
    headX := 400, headY := 300, dirX := 1, dirY := 0, length := 5,
    segments := [], food := none, pendingDir := none, stored := none }

/-- A running game.js state whose head, after a dt = 0 frame, lies both on
the food and within the self-collision threshold of segment index 4. -/
def ceG : GameJS.GState :=
  { canvasWidth := 800, canvasHeight := 600, running := true, paused := false,
    gameOver := false, lastTimestamp := 0, score := 0, highScore := 0,
    headX := 100, headY := 100, dirX := 1, dirY := 0, length := 5,
    segments := [(100, 90), (1, 1), (2, 2), (3, 3), (100, 100)],
    food := some { x := 100, y := 100, color := "#2196f3", points := 5 },
    pendingDir := none, stored := none }

/-- A running app.js state about to step onto its own tail: the snake is
[(1,1), (2,1)] heading right, so the wrapped next head cell is (2,1). -/
def runningA : App.AState :=
  { width := 28, rows := 28, snake := [⟨1, 1⟩, ⟨2, 1⟩], dir := ⟨1, 0⟩,
    nextDir := ⟨1, 0⟩, apple := some ⟨5, 5⟩, obstacles := [], score := 0,
    highScore := 0, running := true, paused := false, allowInput := true,
    stored := none }

/-- An app.js state that is not running. -/
def idleA : App.AState :=
  { width := 28, rows := 28, snake := [⟨1, 1⟩, ⟨2, 1⟩], dir := ⟨1, 0⟩,
    nextDir := ⟨1, 0⟩, apple := some ⟨5, 5⟩, obstacles := [], score := 0,
    highScore := 0, running := false, paused := false, allowInput := true,
    stored := none }

/-- A running part_001 state heading left whose next quantized cell after a
dt = 1/6 frame is (3,5), the cell of its tail segment. -/
def runningS : Smooth.SState :=
  { cols := 10, rows := 10, cellSize := 24, headX := 4, headY := 5,
    headPx := 96, headPy := 120, dirX := -1, dirY := 0, pendingDir := none,
    snake := [⟨4, 5⟩, ⟨3, 5⟩], snakeLength := 2, headPrevCellX := 4,
    headPrevCellY := 5, food := none, score := 0, highScore := 0,
    isRunning := true, isGameOver := false, speedMultiplier := 1,
    stored := none }

/-- A part_001 state that is not running. -/
def idleS : Smooth.SState :=
  { cols := 10, rows := 10, cellSize := 24, headX := 4, headY := 5,
    headPx := 96, headPy := 120, dirX := 1, dirY := 0, pendingDir := none,
    snake := [⟨4, 5⟩, ⟨3, 5⟩], snakeLength := 2, headPrevCellX := 4,
    headPrevCellY := 5, food := none, score := 0, highScore := 0,
    isRunning := false, isGameOver := false, speedMultiplier := 1,
    stored := none }

/-- The state ceG after game.js eats the food in a dt = 0 frame: score and
high score move to 5, the target length grows by the points, and the food
respawn ran out of modelled recursion budget. -/
def ceG' : GameJS.GState :=
  { ceG with score := 5, length := 10, food := none, highScore := 5,
             stored := some (intToString 5) }

/-- C7 counterexample: game.js setDirection is not gated on the game state.
Invoked in an idle state (not running, paused, not game over) it still
records the pending direction, so the call is not a no-op there. -/
theorem gamejs_setDirection_ignores_state :
    idleG.running = false ∧ idleG.paused = true ∧ idleG.gameOver = false ∧
    idleG.pendingDir = none ∧
    (GameJS.setDirection 0 1 idleG).pendingDir = some (0, 1) := by
  decide

/-- C7 amended: only the cell-quantized variant's setDirection is gated on
the game state: it is a no-op (the whole state unchanged) whenever the game
is over or not running. game.js setDirection applies only the no-reverse
check and records the proposal in every state. -/
theorem smooth_setDirection_running_only (nx ny : ℤ) (s : Smooth.SState)
    (h : s.isRunning = false ∨ s.isGameOver = true) :
    Smooth.setDirection nx ny s = s := by
  unfold Smooth.setDirection
  rcases h with h | h <;> simp [h]

/-- C7 witness: the no-op at a concrete non-running state. -/
theorem smooth_setDirection_running_only_witness :
    Smooth.setDirection 0 1 idleS = idleS :=
  smooth_setDirection_running_only 0 1 idleS (Or.inl rfl)

/-- C9 counterexample: the pause operation the code exposes is togglePause;
invoked on an already paused, not game-over state it unpauses, so a second
consecutive pause call is not a no-op leaving the state Paused. -/
theorem gamejs_togglePause_unpauses_when_paused :
    idleG.paused = true ∧ idleG.gameOver = false ∧
    (GameJS.togglePause idleG).paused = false := by
  decide

/-- C9 amended: both variants expose a single togglePause rather than
separate idempotent pause/resume calls: togglePause is a no-op exactly on
states where pausing is invalid (game over in game.js, not running in
app.js), and otherwise two consecutive calls restore the paused flag (an
involution, not idempotence). -/
theorem togglePause_noop_and_involution :
    (∀ s : GameJS.GState, s.gameOver = true → GameJS.togglePause s = s) ∧
    (∀ s : GameJS.GState, s.gameOver = false →
      (GameJS.togglePause (GameJS.togglePause s)).paused = s.paused) ∧
    (∀ s : App.AState, s.running = false → App.togglePause s = s) ∧
    (∀ s : App.AState, s.running = true →
      App.togglePause (App.togglePause s) = s) := by
  refine ⟨fun s h => by simp [GameJS.togglePause, h], fun s h => ?_,
          fun s h => by simp [App.togglePause, h], fun s h => ?_⟩
  · rcases hp : s.paused with _ | _ <;> simp [GameJS.togglePause, h, hp]
  · rcases hp : s.paused with _ | _ <;> cases s <;>
      simp_all [App.togglePause]

/-- C9 witness: the amended facts at concrete states. -/
theorem togglePause_noop_and_involution_witness :
    GameJS.togglePause overG = overG ∧
    (GameJS.togglePause (GameJS.togglePause idleG)).paused = idleG.paused ∧
    App.togglePause idleA = idleA ∧
    App.togglePause (App.togglePause runningA) = runningA :=
  ⟨togglePause_noop_and_involution.1 overG rfl,
   togglePause_noop_and_involution.2.1 idleG rfl,
   togglePause_noop_and_involution.2.2.1 idleA rfl,
   togglePause_noop_and_involution.2.2.2 runningA rfl⟩

/-- C6: loading the stored high score in game.js evaluates parseInt on the
raw stored string, so the corrupt value "abc" loads as NaN (none), not as
the integer 0, while a missing value loads as 0; the cell-quantized
variant's extra JS OR-zero guard loads the same corrupt value as 0. -/
theorem gamejs_load_corrupt_highscore_is_nan :
    GameJS.loadHighScore (some "abc") = none ∧
    GameJS.loadHighScore none = some 0 ∧
    Smooth.loadHighScore (some "abc") = 0 := by
  refine ⟨by decide, by decide, by decide⟩


/-- A successful pass through the spawnApple retry loop returns a cell that
was checked against both occupancy lists. -/
theorem spawnAppleFrom_not_mem (rand : ℕ → ℚ × ℚ) (snake obstacles : List Pos)
    (width rows : ℤ) :
    ∀ (fuel i : ℕ) (p : Pos),
      App.spawnAppleFrom rand snake obstacles width rows i fuel = some p →
      p ∉ snake ∧ p ∉ obstacles := by
  intro fuel
  induction fuel with
  | zero => intro i p h; simp [App.spawnAppleFrom] at h
  | succ fuel ih =>
    intro i p h
    simp only [App.spawnAppleFrom] at h
    by_cases hc : (snake.contains (App.appleCandidate width rows (rand i)) ||
        obstacles.contains (App.appleCandidate width rows (rand i))) = true
    · rw [if_pos hc] at h
      exact ih (i + 1) p h
    · rw [if_neg hc] at h
      cases h
      simp only [Bool.or_eq_true, not_or] at hc
      constructor
      · intro hm; exact hc.1 (by simpa using hm)
      · intro hm; exact hc.2 (by simpa using hm)

/-- When every attempt of the stream is rejected, the spawnApple retry loop
reports no apple whatever its remaining budget. -/
theorem spawnAppleFrom_exhaust (rand : ℕ → ℚ × ℚ) (snake obstacles : List Pos)
    (width rows : ℤ)
    (h : ∀ j : ℕ, (snake.contains (App.appleCandidate width rows (rand j)) ||
      obstacles.contains (App.appleCandidate width rows (rand j))) = true) :
    ∀ (fuel i : ℕ),
      App.spawnAppleFrom rand snake obstacles width rows i fuel = none := by
  intro fuel
  induction fuel with
  | zero => intro i; rfl
  | succ fuel ih =>
    intro i
    simp only [App.spawnAppleFrom]
    rw [if_pos (h i)]
    exact ih (i + 1)

/-- A successful pass through the game.js spawnFood recursion returns a food
whose position passed the segment-distance check, hence is on no segment. -/
theorem gamejs_spawnFoodFrom_not_mem (rand : ℕ → ℚ × ℚ × ℚ)
    (segments : List (ℚ × ℚ)) (cW cH : ℚ) :
    ∀ (fuel i : ℕ) (f : GameJS.Food),
      GameJS.spawnFoodFrom rand segments cW cH i fuel = some f →
      (f.x, f.y) ∉ segments := by
  intro fuel
  induction fuel with
  | zero => intro i f h; simp [GameJS.spawnFoodFrom] at h
  | succ fuel ih =>
    intro i f h
    simp only [GameJS.spawnFoodFrom] at h
    by_cases hc : (segments.any fun sg =>
        GameJS.distSqLt sg ((GameJS.foodCandidate cW cH (rand i)).x,
          (GameJS.foodCandidate cW cH (rand i)).y) (99 / 5)) = true
    · rw [if_pos hc] at h
      exact ih (i + 1) f h
    · rw [if_neg hc] at h
      cases h
      intro hmem
      apply hc
      rw [List.any_eq_true]
      refine ⟨_, hmem, ?_⟩
      simp only [GameJS.distSqLt, decide_eq_true_eq]
      norm_num

/-- Every pass through the part_001 spawnFood retry loop either returns a
food from a successful, occupancy-checked attempt or the fallback at (0,0). -/
theorem spawnFoodFrom_safe_or_fallback (rand : ℕ → ℚ × ℚ × ℚ)
    (snake : List Pos) (head : Pos) (cols rows : ℤ) :
    ∀ (fuel i : ℕ),
      ((⟨(Smooth.spawnFoodFrom rand snake head cols rows i fuel).x,
         (Smooth.spawnFoodFrom rand snake head cols rows i fuel).y⟩ : Pos) ∉ snake ∧
        ¬(head.x = (Smooth.spawnFoodFrom rand snake head cols rows i fuel).x ∧
          head.y = (Smooth.spawnFoodFrom rand snake head cols rows i fuel).y)) ∨
      ((Smooth.spawnFoodFrom rand snake head cols rows i fuel).x = 0 ∧
       (Smooth.spawnFoodFrom rand snake head cols rows i fuel).y = 0) := by
  intro fuel
  induction fuel with
  | zero => intro i; right; exact ⟨rfl, rfl⟩
  | succ fuel ih =>
    intro i
    simp only [Smooth.spawnFoodFrom]
    by_cases hc : ¬(snake.contains (Smooth.foodCell cols rows (rand i))) ∧
        ¬(head.x = (Smooth.foodCell cols rows (rand i)).x ∧
          head.y = (Smooth.foodCell cols rows (rand i)).y)
    · rw [if_pos hc]
      left
      refine ⟨fun hm => hc.1 (by simpa using hm), hc.2⟩
    · rw [if_neg hc]
      exact ih (i + 1)

/-- When every attempt of the stream is rejected, the part_001 retry loop
runs out of budget and returns the fallback food at (0,0). -/
theorem spawnFoodFrom_exhaust (rand : ℕ → ℚ × ℚ × ℚ) (snake : List Pos)
    (head : Pos) (cols rows : ℤ)
    (h : ∀ j : ℕ, snake.contains (Smooth.foodCell cols rows (rand j)) = true ∨
      (head.x = (Smooth.foodCell cols rows (rand j)).x ∧
       head.y = (Smooth.foodCell cols rows (rand j)).y)) :
    ∀ (fuel i : ℕ), Smooth.spawnFoodFrom rand snake head cols rows i fuel =
      { x := 0, y := 0, color := "#ff4d4d", points := 1 } := by
  intro fuel
  induction fuel with
  | zero => intro i; rfl
  | succ fuel ih =>
    intro i
    simp only [Smooth.spawnFoodFrom]
    rw [if_neg ?_]
    · exact ih (i + 1)
    · rcases h i with hc | hc
      · intro hk; exact hk.1 hc
      · intro hk; exact hk.2 hc

/-- On a 66×66 canvas the food grid of game.js has a single cell centered at
(33,33), whatever the draws in [0,1). -/
theorem foodCandidate_66 (r : ℚ × ℚ × ℚ) (h1 : 0 ≤ r.1) (h2 : r.1 < 1)
    (h3 : 0 ≤ r.2.1) (h4 : r.2.1 < 1) :
    (GameJS.foodCandidate 66 66 r).x = 33 ∧
    (GameJS.foodCandidate 66 66 r).y = 33 := by
  have hx : ⌊r.1⌋ = 0 := Int.floor_eq_zero_iff.mpr ⟨h1, h2⟩
  have hy : ⌊r.2.1⌋ = 0 := Int.floor_eq_zero_iff.mpr ⟨h3, h4⟩
  have hc : (⌊((66 : ℚ) - 22 * 2) / 22⌋ : ℤ) = 1 := by norm_num
  simp only [GameJS.foodCandidate, randIntJs, hc]
  norm_num [hx, hy]

/-- game.js spawnFood never succeeds on a 66×66 canvas whose single aligned
cell (33,33) is occupied by a segment: no recursion budget suffices. -/
theorem gamejs_spawnFood_diverges (rand : ℕ → ℚ × ℚ × ℚ)
    (h : ∀ j : ℕ, 0 ≤ (rand j).1 ∧ (rand j).1 < 1 ∧
      0 ≤ (rand j).2.1 ∧ (rand j).2.1 < 1) :
    ∀ (fuel i : ℕ),
      GameJS.spawnFoodFrom rand [((33 : ℚ), (33 : ℚ))] 66 66 i fuel = none := by
  intro fuel
  induction fuel with
  | zero => intro i; rfl
  | succ fuel ih =>
    intro i
    obtain ⟨hx, hy⟩ := foodCandidate_66 (rand i) (h i).1 (h i).2.1
      (h i).2.2.1 (h i).2.2.2
    simp only [GameJS.spawnFoodFrom]
    rw [if_pos ?_]
    · exact ih (i + 1)
    · rw [List.any_eq_true]
      refine ⟨(33, 33), by simp, ?_⟩
      rw [hx, hy]
      simp only [GameJS.distSqLt, decide_eq_true_eq]
      norm_num

/-- A first-attempt success of the spawnApple retry loop. -/
theorem spawnAppleFrom_succ_success (rand : ℕ → ℚ × ℚ)
    (snake obstacles : List Pos) (width rows : ℤ) (i fuel : ℕ)
    (h : (snake.contains (App.appleCandidate width rows (rand i)) ||
      obstacles.contains (App.appleCandidate width rows (rand i))) = false) :
    App.spawnAppleFrom rand snake obstacles width rows i (fuel + 1) =
      some (App.appleCandidate width rows (rand i)) := by
  simp only [App.spawnAppleFrom]
  rw [if_neg (by rw [h]; simp)]

/-- A first-attempt success of the game.js spawnFood recursion. -/
theorem gamejs_spawnFoodFrom_succ_success (rand : ℕ → ℚ × ℚ × ℚ)
    (segments : List (ℚ × ℚ)) (cW cH : ℚ) (i fuel : ℕ)
    (h : (segments.any fun sg =>
      GameJS.distSqLt sg ((GameJS.foodCandidate cW cH (rand i)).x,
        (GameJS.foodCandidate cW cH (rand i)).y) (99 / 5)) = false) :
    GameJS.spawnFoodFrom rand segments cW cH i (fuel + 1) =
      some (GameJS.foodCandidate cW cH (rand i)) := by
  simp only [GameJS.spawnFoodFrom]
  rw [if_neg (by rw [h]; simp)]

/-- C3 counterexample: on a 1×1 grid whose only cell is the head's, every
one of the 200 attempts is rejected, and part_001's spawnFood then places
the default food at (0,0): on exhaustion food is present, not absent. -/
theorem smooth_spawnFood_exhaustion_places_origin :
    Smooth.spawnFood (fun _ => (0, 0, 0)) [] ⟨0, 0⟩ 1 1 =
      { x := 0, y := 0, color := "#ff4d4d", points := 1 } := by
  have hcell : Smooth.foodCell 1 1 ((0 : ℚ), (0 : ℚ), (0 : ℚ)) = ⟨0, 0⟩ := by
    simp [Smooth.foodCell]
  exact spawnFoodFrom_exhaust _ _ _ _ _
    (fun j => Or.inr (by rw [hcell]; exact ⟨rfl, rfl⟩)) 200 0

/-- C3 amended: app.js spawnApple stops after its 500-attempt budget and
leaves the apple absent when every attempt is rejected; part_001's spawnFood
stops after its 200-attempt budget but then places the default food at
(0,0) instead of leaving food absent; game.js spawnFood has no attempt
budget at all: on a board whose only aligned cell is occupied it rejects
every attempt no matter how much recursion depth it is given. -/
theorem spawn_retry_budgets :
    (∀ (rand : ℕ → ℚ × ℚ) (snake obstacles : List Pos) (width rows : ℤ),
      (∀ j : ℕ, (snake.contains (App.appleCandidate width rows (rand j)) ||
        obstacles.contains (App.appleCandidate width rows (rand j))) = true) →
      App.spawnApple rand snake obstacles width rows = none) ∧
    (∀ (rand : ℕ → ℚ × ℚ × ℚ) (snake : List Pos) (head : Pos) (cols rows : ℤ),
      (∀ j : ℕ, snake.contains (Smooth.foodCell cols rows (rand j)) = true ∨
        (head.x = (Smooth.foodCell cols rows (rand j)).x ∧
         head.y = (Smooth.foodCell cols rows (rand j)).y)) →
      Smooth.spawnFood rand snake head cols rows =
        { x := 0, y := 0, color := "#ff4d4d", points := 1 }) ∧
    (∀ rand : ℕ → ℚ × ℚ × ℚ,
      (∀ j : ℕ, 0 ≤ (rand j).1 ∧ (rand j).1 < 1 ∧
        0 ≤ (rand j).2.1 ∧ (rand j).2.1 < 1) →
      ∀ fuel : ℕ,
        GameJS.spawnFoodFrom rand [((33 : ℚ), (33 : ℚ))] 66 66 0 fuel = none) :=
  ⟨fun rand snake obstacles width rows h =>
     spawnAppleFrom_exhaust rand snake obstacles width rows h 500 0,
   fun rand snake head cols rows h =>
     spawnFoodFrom_exhaust rand snake head cols rows h 200 0,
   fun rand h fuel => gamejs_spawnFood_diverges rand h fuel 0⟩

/-- C3 witness: the three amended facts at concrete inputs — a fully
occupied 3×3 board for spawnApple, a snake on the only cell of a 1×1 grid
for part_001, and a budget of 7 for the diverging game.js board. -/
theorem spawn_retry_budgets_witness :
    App.spawnApple (fun _ => (0, 0)) [⟨1, 1⟩] [] 3 3 = none ∧
    Smooth.spawnFood (fun _ => (0, 0, 0)) [⟨0, 0⟩] ⟨0, 0⟩ 1 1 =
      { x := 0, y := 0, color := "#ff4d4d", points := 1 } ∧
    GameJS.spawnFoodFrom (fun _ => (1 / 2, 1 / 2, 1 / 2))
      [((33 : ℚ), (33 : ℚ))] 66 66 0 7 = none := by
  have hcand : App.appleCandidate 3 3 ((0 : ℚ), (0 : ℚ)) = ⟨1, 1⟩ := by
    simp [App.appleCandidate, randIntJs]
  have hcell : Smooth.foodCell 1 1 ((0 : ℚ), (0 : ℚ), (0 : ℚ)) = ⟨0, 0⟩ := by
    simp [Smooth.foodCell]
  refine ⟨spawn_retry_budgets.1 _ _ _ _ _ (fun j => ?_),
          spawn_retry_budgets.2.1 _ _ _ _ _ (fun j => ?_),
          spawn_retry_budgets.2.2 _ (fun j => by norm_num) 7⟩
  · rw [hcand]; simp
  · rw [hcell]; left; simp

/-- C4 counterexample: when all 200 attempts are exhausted, part_001's
spawnFood places the food at (0,0) even though (0,0) is occupied by a snake
segment, breaking the spawn-time non-overlap invariant. -/
theorem smooth_spawnFood_fallback_overlaps_snake :
    (Smooth.spawnFood (fun _ => (0, 0, 0)) [⟨0, 0⟩, ⟨1, 0⟩] ⟨1, 0⟩ 2 1).x = 0 ∧
    (Smooth.spawnFood (fun _ => (0, 0, 0)) [⟨0, 0⟩, ⟨1, 0⟩] ⟨1, 0⟩ 2 1).y = 0 ∧
    (⟨0, 0⟩ : Pos) ∈ [(⟨0, 0⟩ : Pos), ⟨1, 0⟩] := by
  have hcell : Smooth.foodCell 2 1 ((0 : ℚ), (0 : ℚ), (0 : ℚ)) = ⟨0, 0⟩ := by
    simp [Smooth.foodCell]
  have h := spawnFoodFrom_exhaust (fun _ => (0, 0, 0)) [⟨0, 0⟩, ⟨1, 0⟩] ⟨1, 0⟩
    2 1 (fun j => Or.inl (by rw [hcell]; simp)) 200 0
  rw [Smooth.spawnFood, h]
  exact ⟨rfl, rfl, by simp⟩

/-- C4 amended: successful placements respect the spawn-time non-overlap
invariant in all three variants — app.js spawnApple avoids the snake and
the obstacles whenever it returns an apple, game.js spawnFood lands on no
sampled segment whenever it returns a food, and part_001's spawnFood avoids
the snake and the head whenever an attempt succeeds — but part_001's
exhaustion fallback pins the food at (0,0) regardless of occupancy. -/
theorem spawn_nonoverlap_on_success :
    (∀ (rand : ℕ → ℚ × ℚ) (snake obstacles : List Pos) (width rows : ℤ)
        (p : Pos), App.spawnApple rand snake obstacles width rows = some p →
        p ∉ snake ∧ p ∉ obstacles) ∧
    (∀ (rand : ℕ → ℚ × ℚ × ℚ) (segments : List (ℚ × ℚ)) (cW cH : ℚ)
        (fuel i : ℕ) (f : GameJS.Food),
        GameJS.spawnFoodFrom rand segments cW cH i fuel = some f →
        (f.x, f.y) ∉ segments) ∧
    (∀ (rand : ℕ → ℚ × ℚ × ℚ) (snake : List Pos) (head : Pos)
        (cols rows : ℤ),
      ((⟨(Smooth.spawnFood rand snake head cols rows).x,
         (Smooth.spawnFood rand snake head cols rows).y⟩ : Pos) ∉ snake ∧
        ¬(head.x = (Smooth.spawnFood rand snake head cols rows).x ∧
          head.y = (Smooth.spawnFood rand snake head cols rows).y)) ∨
      ((Smooth.spawnFood rand snake head cols rows).x = 0 ∧
       (Smooth.spawnFood rand snake head cols rows).y = 0)) :=
  ⟨fun rand snake obstacles width rows p h =>
     spawnAppleFrom_not_mem rand snake obstacles width rows 500 0 p h,
   fun rand segments cW cH fuel i f h =>
     gamejs_spawnFoodFrom_not_mem rand segments cW cH fuel i f h,
   fun rand snake head cols rows =>
     spawnFoodFrom_safe_or_fallback rand snake head cols rows 200 0⟩

/-- C4 witness: the amended facts at a successful concrete apple spawn, a
successful concrete game.js food spawn, and a concrete part_001 spawn. -/
theorem spawn_nonoverlap_on_success_witness :
    ((⟨1, 1⟩ : Pos) ∉ ([] : List Pos) ∧ (⟨1, 1⟩ : Pos) ∉ ([] : List Pos)) ∧
    (((33 : ℚ), (33 : ℚ)) ∉ ([] : List (ℚ × ℚ))) ∧
    (((⟨(Smooth.spawnFood (fun _ => (0, 0, 0)) [] ⟨0, 0⟩ 1 1).x,
       (Smooth.spawnFood (fun _ => (0, 0, 0)) [] ⟨0, 0⟩ 1 1).y⟩ : Pos) ∉
        ([] : List Pos) ∧
      ¬((⟨0, 0⟩ : Pos).x = (Smooth.spawnFood (fun _ => (0, 0, 0)) [] ⟨0, 0⟩ 1 1).x ∧
        (⟨0, 0⟩ : Pos).y = (Smooth.spawnFood (fun _ => (0, 0, 0)) [] ⟨0, 0⟩ 1 1).y)) ∨
     ((Smooth.spawnFood (fun _ => (0, 0, 0)) [] ⟨0, 0⟩ 1 1).x = 0 ∧
      (Smooth.spawnFood (fun _ => (0, 0, 0)) [] ⟨0, 0⟩ 1 1).y = 0)) := by
  have hcand : App.appleCandidate 3 3 ((0 : ℚ), (0 : ℚ)) = ⟨1, 1⟩ := by
    simp [App.appleCandidate, randIntJs]
  have ha : App.spawnApple (fun _ => (0, 0)) [] [] 3 3 = some ⟨1, 1⟩ := by
    have h := spawnAppleFrom_succ_success (fun _ => (0, 0)) [] [] 3 3 0 499
      (by simp)
    rw [App.spawnApple, show (500 : ℕ) = 499 + 1 from rfl, h, hcand]
  have hfc : GameJS.foodCandidate 800 600 ((0 : ℚ), (0 : ℚ), (0 : ℚ)) =
      { x := 33, y := 33, color := "#ff4d4d", points := 1 } := by
    have h1 : (⌊((800 : ℚ) - 22 * 2) / 22⌋ : ℤ) = 34 := by norm_num
    have h2 : (⌊((600 : ℚ) - 22 * 2) / 22⌋ : ℤ) = 25 := by norm_num
    simp only [GameJS.foodCandidate, randIntJs, h1, h2, GameJS.foodTypes]
    norm_num
  have hb : GameJS.spawnFoodFrom (fun _ => (0, 0, 0)) [] 800 600 0 1 =
      some { x := 33, y := 33, color := "#ff4d4d", points := 1 } := by
    have h := gamejs_spawnFoodFrom_succ_success (fun _ => (0, 0, 0)) [] 800 600
      0 0 (by simp)
    rw [show (1 : ℕ) = 0 + 1 from rfl, h, hfc]
  exact ⟨spawn_nonoverlap_on_success.1 (fun _ => (0, 0)) [] [] 3 3 ⟨1, 1⟩ ha,
         spawn_nonoverlap_on_success.2.1 (fun _ => (0, 0, 0)) [] 800 600 1 0
           { x := 33, y := 33, color := "#ff4d4d", points := 1 } hb,
         spawn_nonoverlap_on_success.2.2 (fun _ => (0, 0, 0)) [] ⟨0, 0⟩ 1 1⟩

/-- The direction fields survive the eat phase of game.js update. -/
theorem eatFood_dir (rand : ℕ → ℚ × ℚ × ℚ) (fuel : ℕ) (s : GameJS.GState) :
    (GameJS.eatFood rand fuel s).dirX = s.dirX ∧
    (GameJS.eatFood rand fuel s).dirY = s.dirY := by
  rcases hf : s.food with _ | f
  · simp [GameJS.eatFood, hf]
  · simp only [GameJS.eatFood, hf]
    split
    · split
      · exact ⟨rfl, rfl⟩
      · exact ⟨rfl, rfl⟩
    · exact ⟨rfl, rfl⟩

/-- The direction fields survive endGame. -/
theorem endGame_dir (s : GameJS.GState) :
    (GameJS.endGame s).dirX = s.dirX ∧ (GameJS.endGame s).dirY = s.dirY := by
  constructor <;>
  · unfold GameJS.endGame
    dsimp only
    split <;> rfl

/-- The direction fields survive the collision phase of game.js update. -/
theorem collide_dir (s : GameJS.GState) :
    (GameJS.collide s).dirX = s.dirX ∧ (GameJS.collide s).dirY = s.dirY := by
  unfold GameJS.collide
  split
  · exact endGame_dir _
  · split
    · exact endGame_dir _
    · exact ⟨rfl, rfl⟩

/-- Any same-tick sequence of game.js setDirection calls leaves the current
direction unchanged and ends with a pending direction that is either the
original one or one that passed the no-reverse check. -/
theorem proposeList_inv (props : List (ℚ × ℚ)) :
    ∀ s : GameJS.GState, (proposeList props s).dirX = s.dirX ∧
      (proposeList props s).dirY = s.dirY ∧
      ((proposeList props s).pendingDir = s.pendingDir ∨
        ∃ p : ℚ × ℚ, (proposeList props s).pendingDir = some p ∧
          ¬(p.1 = -s.dirX ∧ p.2 = -s.dirY)) := by
  induction props with
  | nil => intro s; exact ⟨rfl, rfl, Or.inl rfl⟩
  | cons q qs ih =>
    intro s
    have hstep : proposeList (q :: qs) s =
        proposeList qs (GameJS.setDirection q.1 q.2 s) := rfl
    by_cases hg : q.1 = -s.dirX ∧ q.2 = -s.dirY
    · have hset : GameJS.setDirection q.1 q.2 s = s := by
        unfold GameJS.setDirection
        rw [if_pos hg]
      rw [hstep, hset]
      exact ih s
    · have hset : GameJS.setDirection q.1 q.2 s =
          { s with pendingDir := some q } := by
        unfold GameJS.setDirection
        rw [if_neg hg]
      rw [hstep, hset]
      obtain ⟨h1, h2, h3⟩ := ih { s with pendingDir := some q }
      refine ⟨h1, h2, ?_⟩
      rcases h3 with h3 | ⟨p, hp, hnp⟩
      · exact Or.inr ⟨q, h3, hg⟩
      · exact Or.inr ⟨p, hp, hnp⟩

/-- Any same-tick sequence of app.js touch inputs leaves dir unchanged and
ends with a nextDir that is either the original one or one that passed the
no-reverse check. -/
theorem applyKeys_inv (keys : List App.DirKey) :
    ∀ s : App.AState, (applyKeys keys s).dir = s.dir ∧
      ((applyKeys keys s).nextDir = s.nextDir ∨
        ¬((applyKeys keys s).nextDir.x = -s.dir.x ∧
          (applyKeys keys s).nextDir.y = -s.dir.y)) := by
  induction keys with
  | nil => intro s; exact ⟨rfl, Or.inl rfl⟩
  | cons k ks ih =>
    intro s
    have hstep : applyKeys (k :: ks) s =
        applyKeys ks (App.applyDirection k s) := rfl
    by_cases ha : s.allowInput = true
    · by_cases hg : (App.mapping k).x = -s.dir.x ∧ (App.mapping k).y = -s.dir.y
      · have hset : App.applyDirection k s = s := by
          simp only [App.applyDirection, ha, Bool.not_true, Bool.false_eq_true,
            if_false]
          rw [if_pos hg]
        rw [hstep, hset]
        exact ih s
      · have hset : App.applyDirection k s =
            { s with nextDir := App.mapping k, allowInput := false } := by
          simp only [App.applyDirection, ha, Bool.not_true, Bool.false_eq_true,
            if_false]
          rw [if_neg hg]
        rw [hstep, hset]
        obtain ⟨h1, h2⟩ := ih { s with nextDir := App.mapping k, allowInput := false }
        refine ⟨h1, ?_⟩
        rcases h2 with h2 | h2
        · exact Or.inr (h2 ▸ hg)
        · exact Or.inr h2
    · have hset : App.applyDirection k s = s := by
        have ha' : s.allowInput = false := by
          revert ha
          cases s.allowInput <;> simp
        simp [App.applyDirection, ha']
      rw [hstep, hset]
      exact ih s

/-- The gameOver transition of app.js stops the loop and touches nothing
but running, paused, highScore and the store. -/
theorem app_gameOver_fields (s : App.AState) :
    (App.gameOver s).running = false ∧ (App.gameOver s).score = s.score ∧
    (App.gameOver s).snake = s.snake ∧ (App.gameOver s).dir = s.dir := by
  refine ⟨?_, ?_, ?_, ?_⟩ <;>
  · unfold App.gameOver
    dsimp only
    split <;> rfl

/-- maybeAddObstacle only ever touches the obstacle list. -/
theorem maybeAddObstacle_fields (r : ℚ) (o : ℚ × ℚ) (s : App.AState) :
    (App.maybeAddObstacle r o s).snake = s.snake ∧
    (App.maybeAddObstacle r o s).dir = s.dir := by
  refine ⟨?_, ?_⟩ <;>
  · unfold App.maybeAddObstacle
    dsimp only
    split_ifs <;> rfl

/-- One app.js tick applies exactly the buffered nextDir as the direction,
in every branch. -/
theorem tick_dir (rand : ℕ → ℚ × ℚ) (rEat rObs : ℚ) (oPos : ℚ × ℚ)
    (s : App.AState) (hd : Pos) (rest : List Pos) (hs : s.snake = hd :: rest) :
    (App.tick rand rEat rObs oPos s).dir = s.nextDir := by
  simp only [App.tick, hs]
  split
  · exact (app_gameOver_fields _).2.2.2
  · split
    · exact (app_gameOver_fields _).2.2.2
    · split
      · split
        · exact (maybeAddObstacle_fields _ _ _).2
        · rfl
      · rfl

/-- C2: the direction applied at tick k+1 is never the exact negation of
the direction applied at tick k. In game.js, any same-tick sequence of
setDirection proposals leaves the current direction unchanged and the
direction the next update will consume (appliedNext) is never its negation,
and update indeed applies appliedNext. In app.js, any same-tick sequence of
buffered touch inputs keeps nextDir away from the negation of dir, and tick
applies exactly nextDir. -/
theorem no_reverse_across_ticks :
    (∀ (props : List (ℚ × ℚ)) (s : GameJS.GState), s.pendingDir = none →
      ¬(s.dirX = 0 ∧ s.dirY = 0) →
      appliedNext (proposeList props s) ≠ (-s.dirX, -s.dirY)) ∧
    (∀ (dt : ℚ) (rand : ℕ → ℚ × ℚ × ℚ) (fuel : ℕ) (s : GameJS.GState),
      (GameJS.update dt rand fuel s).dirX = (appliedNext s).1 ∧
      (GameJS.update dt rand fuel s).dirY = (appliedNext s).2) ∧
    (∀ (keys : List App.DirKey) (s : App.AState), s.nextDir ≠ s.dir.neg →
      (applyKeys keys s).dir = s.dir ∧
      (applyKeys keys s).nextDir ≠ s.dir.neg) ∧
    (∀ (rand : ℕ → ℚ × ℚ) (rEat rObs : ℚ) (oPos : ℚ × ℚ) (s : App.AState)
      (hd : Pos) (rest : List Pos), s.snake = hd :: rest →
      (App.tick rand rEat rObs oPos s).dir = s.nextDir) := by
  refine ⟨?_, ?_, ?_, tick_dir⟩
  · intro props s hpend hzero heq
    obtain ⟨h1, h2, h3⟩ := proposeList_inv props s
    rcases h3 with h3 | ⟨p, hp, hnp⟩
    · rw [appliedNext, h3, hpend] at heq
      dsimp only [Option.getD] at heq
      rw [h1, h2, Prod.mk.injEq] at heq
      exact hzero ⟨by linarith [heq.1], by linarith [heq.2]⟩
    · rw [appliedNext, hp] at heq
      dsimp only [Option.getD] at heq
      exact hnp ⟨by rw [heq], by rw [heq]⟩
  · intro dt rand fuel s
    obtain ⟨e1, e2⟩ := eatFood_dir rand fuel
      (GameJS.sampleTrim (GameJS.moveHead dt (GameJS.consumeDir s)))
    obtain ⟨c1, c2⟩ := collide_dir
      (GameJS.eatFood rand fuel
        (GameJS.sampleTrim (GameJS.moveHead dt (GameJS.consumeDir s))))
    unfold GameJS.update
    rw [c1, c2, e1, e2]
    exact ⟨rfl, rfl⟩
  · intro keys s hne
    obtain ⟨h1, h2⟩ := applyKeys_inv keys s
    refine ⟨h1, ?_⟩
    rcases h2 with h2 | h2
    · rw [h2]; exact hne
    · intro heq
      exact h2 ⟨by rw [heq]; rfl, by rw [heq]; rfl⟩

/-- C2 witness: the four facts at concrete inputs — a same-tick up-then-left
input burst in an idle game.js state heading right, one update frame, a
same-tick up input in a running app.js state, and one app.js tick. -/
theorem no_reverse_across_ticks_witness :
    appliedNext (proposeList [(0, 1), (-1, 0)] idleG) ≠
      (-idleG.dirX, -idleG.dirY) ∧
    ((GameJS.update 0 (fun _ => (0, 0, 0)) 0 idleG).dirX = (appliedNext idleG).1 ∧
     (GameJS.update 0 (fun _ => (0, 0, 0)) 0 idleG).dirY = (appliedNext idleG).2) ∧
    ((applyKeys [App.DirKey.up] runningA).dir = runningA.dir ∧
     (applyKeys [App.DirKey.up] runningA).nextDir ≠ runningA.dir.neg) ∧
    (App.tick (fun _ => (0, 0)) 0 0 (0, 0) runningA).dir = runningA.nextDir :=
  ⟨no_reverse_across_ticks.1 [(0, 1), (-1, 0)] idleG rfl (by norm_num [idleG]),
   no_reverse_across_ticks.2.1 0 (fun _ => (0, 0, 0)) 0 idleG,
   no_reverse_across_ticks.2.2.1 [App.DirKey.up] runningA (by decide),
   no_reverse_across_ticks.2.2.2 (fun _ => (0, 0)) 0 0 (0, 0) runningA
     ⟨1, 1⟩ [⟨2, 1⟩] rfl⟩

/-- C1 counterexample: in game.js a frame whose post-move head lies both on
the food and within the self-collision threshold of segment index 4 still
awards the food points: update ends the game AND moves the score from 0 to
5 in the same frame, so the collision does not win the tie. -/
theorem gamejs_update_awards_points_despite_collision :
    ceG.score = 0 ∧ ceG.gameOver = false ∧ ceG.running = true ∧
    (GameJS.update 0 (fun _ => (0, 0, 0)) 0 ceG).gameOver = true ∧
    (GameJS.update 0 (fun _ => (0, 0, 0)) 0 ceG).score = 5 := by
  have h1 : GameJS.sampleTrim (GameJS.moveHead 0 (GameJS.consumeDir ceG)) =
      ceG := by
    norm_num [GameJS.consumeDir, GameJS.moveHead, GameJS.sampleTrim,
      GameJS.distSqGe, ceG]
  have h2 : GameJS.eatFood (fun _ => (0, 0, 0)) 0 ceG = ceG' := by
    norm_num [GameJS.eatFood, GameJS.spawnFoodFrom, GameJS.distSqLt,
      decide_eq_true_eq, ceG, ceG']
  refine ⟨rfl, rfl, rfl, ?_, ?_⟩ <;>
  · unfold GameJS.update
    rw [h1, h2]
    norm_num [GameJS.collide, GameJS.endGame, GameJS.distSqLt,
      decide_eq_true_eq, ceG', ceG]

/-- triggerGameOver only stops the game and possibly persists the high
score; score and snake are untouched. -/
theorem triggerGameOver_fields (s : Smooth.SState) :
    (Smooth.triggerGameOver s).isGameOver = true ∧
    (Smooth.triggerGameOver s).isRunning = false ∧
    (Smooth.triggerGameOver s).score = s.score ∧
    (Smooth.triggerGameOver s).snake = s.snake := by
  refine ⟨?_, ?_, ?_, ?_⟩ <;>
  · unfold Smooth.triggerGameOver
    dsimp only
    split <;> rfl

/-- When the wrapped next head cell hits the body or an obstacle, app.js
tick goes straight to gameOver: the loop stops and the score and snake are
untouched, whether or not the apple sits on that very cell. -/
theorem app_tick_collision (rand : ℕ → ℚ × ℚ) (rEat rObs : ℚ) (oPos : ℚ × ℚ)
    (s : App.AState) (hd : Pos) (rest : List Pos) (hs : s.snake = hd :: rest)
    (hcoll : rest.contains (App.nextHead s hd) = true ∨
      s.obstacles.contains (App.nextHead s hd) = true) :
    (App.tick rand rEat rObs oPos s).running = false ∧
    (App.tick rand rEat rObs oPos s).score = s.score ∧
    (App.tick rand rEat rObs oPos s).snake = s.snake := by
  simp only [App.tick, hs]
  by_cases h1 : rest.contains (App.nextHead s hd) = true
  · rw [if_pos h1]
    exact ⟨(app_gameOver_fields _).1, (app_gameOver_fields _).2.1,
      (app_gameOver_fields _).2.2.1⟩
  · rw [if_neg h1]
    rcases hcoll with hc | hc
    · exact absurd hc h1
    · rw [if_pos hc]
      exact ⟨(app_gameOver_fields _).1, (app_gameOver_fields _).2.1,
        (app_gameOver_fields _).2.2.1⟩

/-- When the quantized cell changes and the new cell is off the board or on
the body, part_001's update goes straight to triggerGameOver: the game ends
and the score is untouched, whether or not the food sits on that cell. -/
theorem smooth_update_collision (dt : ℚ) (rand : ℕ → ℚ × ℚ × ℚ)
    (s : Smooth.SState) (hgo : s.isGameOver = false)
    (hch : ¬((Smooth.nextCell dt s).1 = s.headPrevCellX ∧
      (Smooth.nextCell dt s).2 = s.headPrevCellY))
    (hcoll : ((Smooth.nextCell dt s).1 < 0 ∨ (Smooth.nextCell dt s).1 ≥ s.cols ∨
        (Smooth.nextCell dt s).2 < 0 ∨ (Smooth.nextCell dt s).2 ≥ s.rows) ∨
      s.snake.contains ⟨(Smooth.nextCell dt s).1, (Smooth.nextCell dt s).2⟩ = true) :
    (Smooth.update dt rand s).isGameOver = true ∧
    (Smooth.update dt rand s).isRunning = false ∧
    (Smooth.update dt rand s).score = s.score := by
  have hprev1 : (Smooth.integrate dt (Smooth.applyPendingDir s)).headPrevCellX
      = s.headPrevCellX := rfl
  have hprev2 : (Smooth.integrate dt (Smooth.applyPendingDir s)).headPrevCellY
      = s.headPrevCellY := rfl
  have hcols : (Smooth.integrate dt (Smooth.applyPendingDir s)).cols
      = s.cols := rfl
  have hrows : (Smooth.integrate dt (Smooth.applyPendingDir s)).rows
      = s.rows := rfl
  have hsnake : (Smooth.integrate dt (Smooth.applyPendingDir s)).snake
      = s.snake := rfl
  simp only [Smooth.update, hgo, Bool.false_eq_true, if_false]
  rw [if_neg (by rw [hprev1, hprev2]; exact hch)]
  unfold Smooth.enterCell
  by_cases hwall : (Smooth.nextCell dt s).1 < 0 ∨ (Smooth.nextCell dt s).1 ≥ s.cols ∨
      (Smooth.nextCell dt s).2 < 0 ∨ (Smooth.nextCell dt s).2 ≥ s.rows
  · rw [if_pos (by dsimp only; rw [hcols, hrows]; exact hwall)]
    exact ⟨(triggerGameOver_fields _).1, (triggerGameOver_fields _).2.1,
      (triggerGameOver_fields _).2.2.1⟩
  · rw [if_neg (by dsimp only; rw [hcols, hrows]; exact hwall)]
    rcases hcoll with hc | hc
    · exact absurd hc hwall
    · rw [if_pos (by dsimp only; rw [hsnake]; exact hc)]
      exact ⟨(triggerGameOver_fields _).1, (triggerGameOver_fields _).2.1,
        (triggerGameOver_fields _).2.2.1⟩

/-- C1 amended: in the two grid variants the collision checks run before
the food check, so when the next head cell both carries food and collides,
the collision wins — the game stops and the score is untouched. In game.js
the food check runs first, so the points are awarded even when the same
frame ends the game. -/
theorem grid_variants_collision_wins :
    (∀ (rand : ℕ → ℚ × ℚ) (rEat rObs : ℚ) (oPos : ℚ × ℚ) (s : App.AState)
        (hd : Pos) (rest : List Pos), s.snake = hd :: rest →
      (rest.contains (App.nextHead s hd) = true ∨
        s.obstacles.contains (App.nextHead s hd) = true) →
      (App.tick rand rEat rObs oPos s).running = false ∧
      (App.tick rand rEat rObs oPos s).score = s.score) ∧
    (∀ (dt : ℚ) (rand : ℕ → ℚ × ℚ × ℚ) (s : Smooth.SState),
      s.isGameOver = false →
      ¬((Smooth.nextCell dt s).1 = s.headPrevCellX ∧
        (Smooth.nextCell dt s).2 = s.headPrevCellY) →
      (((Smooth.nextCell dt s).1 < 0 ∨ (Smooth.nextCell dt s).1 ≥ s.cols ∨
          (Smooth.nextCell dt s).2 < 0 ∨ (Smooth.nextCell dt s).2 ≥ s.rows) ∨
        s.snake.contains ⟨(Smooth.nextCell dt s).1, (Smooth.nextCell dt s).2⟩
          = true) →
      (Smooth.update dt rand s).isGameOver = true ∧
      (Smooth.update dt rand s).isRunning = false ∧
      (Smooth.update dt rand s).score = s.score) :=
  ⟨fun rand rEat rObs oPos s hd rest hs hcoll =>
     ⟨(app_tick_collision rand rEat rObs oPos s hd rest hs hcoll).1,
      (app_tick_collision rand rEat rObs oPos s hd rest hs hcoll).2.1⟩,
   fun dt rand s hgo hch hcoll =>
     smooth_update_collision dt rand s hgo hch hcoll⟩

/-- C1 witness: the amended facts at concrete states — an app.js snake
about to bite its own tail and a part_001 snake whose next quantized cell
is its tail cell. -/
theorem grid_variants_collision_wins_witness :
    ((App.tick (fun _ => (0, 0)) 0 0 (0, 0) runningA).running = false ∧
     (App.tick (fun _ => (0, 0)) 0 0 (0, 0) runningA).score = runningA.score) ∧
    ((Smooth.update (1 / 6) (fun _ => (0, 0, 0)) runningS).isGameOver = true ∧
     (Smooth.update (1 / 6) (fun _ => (0, 0, 0)) runningS).isRunning = false ∧
     (Smooth.update (1 / 6) (fun _ => (0, 0, 0)) runningS).score
       = runningS.score) := by
  have hcell : Smooth.nextCell (1 / 6) runningS = (3, 5) := by
    norm_num [Smooth.nextCell, Smooth.effDir, runningS, round_eq]
  exact ⟨grid_variants_collision_wins.1 (fun _ => (0, 0)) 0 0 (0, 0) runningA
     ⟨1, 1⟩ [⟨2, 1⟩] rfl (Or.inl (by decide)),
   grid_variants_collision_wins.2 (1 / 6) (fun _ => (0, 0, 0)) runningS rfl
     (by rw [hcell]; decide) (Or.inr (by rw [hcell]; decide))⟩

/-- C10: in both grid variants self-collision is evaluated against the full
current body before the tail is removed: when the next head cell equals the
cell of the current tail segment, the tick ends the game — there is no
tail-chase allowance. -/
theorem tail_cell_collision_ends_game :
    (∀ (rand : ℕ → ℚ × ℚ) (rEat rObs : ℚ) (oPos : ℚ × ℚ) (s : App.AState)
        (hd t : Pos) (rest : List Pos), s.snake = hd :: rest →
      rest.getLast? = some t → App.nextHead s hd = t →
      (App.tick rand rEat rObs oPos s).running = false ∧
      (App.tick rand rEat rObs oPos s).snake = s.snake) ∧
    (∀ (dt : ℚ) (rand : ℕ → ℚ × ℚ × ℚ) (s : Smooth.SState) (t : Pos),
      s.isGameOver = false →
      ¬((Smooth.nextCell dt s).1 = s.headPrevCellX ∧
        (Smooth.nextCell dt s).2 = s.headPrevCellY) →
      s.snake.getLast? = some t →
      (Smooth.nextCell dt s).1 = t.x → (Smooth.nextCell dt s).2 = t.y →
      (Smooth.update dt rand s).isGameOver = true ∧
      (Smooth.update dt rand s).isRunning = false) := by
  constructor
  · intro rand rEat rObs oPos s hd t rest hs hlast hhit
    have hmem : t ∈ rest := List.mem_of_mem_getLast? hlast
    have hcont : rest.contains (App.nextHead s hd) = true := by
      rw [hhit]; simpa using hmem
    exact ⟨(app_tick_collision rand rEat rObs oPos s hd rest hs (Or.inl hcont)).1,
      (app_tick_collision rand rEat rObs oPos s hd rest hs (Or.inl hcont)).2.2⟩
  · intro dt rand s t hgo hch hlast hx hy
    have hmem : t ∈ s.snake := List.mem_of_mem_getLast? hlast
    have hcont : s.snake.contains
        ⟨(Smooth.nextCell dt s).1, (Smooth.nextCell dt s).2⟩ = true := by
      rw [hx, hy]
      have : (⟨t.x, t.y⟩ : Pos) = t := rfl
      rw [this]
      simpa using hmem
    have h := smooth_update_collision dt rand s hgo hch (Or.inr hcont)
    exact ⟨h.1, h.2.1⟩

/-- C10 witness: the two facts at the concrete tail-chase states used for
the collision witness, whose next head cell is exactly the tail cell. -/
theorem tail_cell_collision_ends_game_witness :
    ((App.tick (fun _ => (1, 1)) 1 1 (1, 1) runningA).running = false ∧
     (App.tick (fun _ => (1, 1)) 1 1 (1, 1) runningA).snake = runningA.snake) ∧
    ((Smooth.update (1 / 6) (fun _ => (1, 1, 1)) runningS).isGameOver = true ∧
     (Smooth.update (1 / 6) (fun _ => (1, 1, 1)) runningS).isRunning = false) := by
  have hcell : Smooth.nextCell (1 / 6) runningS = (3, 5) := by
    norm_num [Smooth.nextCell, Smooth.effDir, runningS, round_eq]
  exact ⟨tail_cell_collision_ends_game.1 (fun _ => (1, 1)) 1 1 (1, 1) runningA
     ⟨1, 1⟩ ⟨2, 1⟩ [⟨2, 1⟩] rfl rfl (by decide),
   tail_cell_collision_ends_game.2 (1 / 6) (fun _ => (1, 1, 1)) runningS
     ⟨3, 5⟩ rfl (by rw [hcell]; decide) rfl (by rw [hcell]) (by rw [hcell])⟩

/-- On a food hit that beats the high score, the eat phase of game.js moves
score, highScore and the persisted value together. -/
theorem eatFood_hit (rand : ℕ → ℚ × ℚ × ℚ) (fuel : ℕ) (s : GameJS.GState)
    (f : GameJS.Food) (hf : s.food = some f)
    (hd : GameJS.distSqLt (s.headX, s.headY) (f.x, f.y) (99 / 5) = true)
    (hs : s.score + f.points > s.highScore) :
    (GameJS.eatFood rand fuel s).score = s.score + f.points ∧
    (GameJS.eatFood rand fuel s).highScore = s.score + f.points ∧
    (GameJS.eatFood rand fuel s).stored =
      some (intToString (s.score + f.points)) := by
  simp only [GameJS.eatFood, hf]
  rw [if_pos hd]
  rw [if_pos (show
    ({ s with score := s.score + f.points,
              length := s.length + max 1 f.points } : GameJS.GState).score >
    ({ s with score := s.score + f.points,
              length := s.length + max 1 f.points } : GameJS.GState).highScore
    from hs)]
  exact ⟨rfl, rfl, rfl⟩

/-- When the score does not beat the high score, the collision phase of
game.js keeps highScore and the persisted value unchanged, whether or not
it ends the game. -/
theorem collide_keeps_high (s : GameJS.GState) (h : ¬s.score > s.highScore) :
    (GameJS.collide s).highScore = s.highScore ∧
    (GameJS.collide s).stored = s.stored := by
  have he : (GameJS.endGame s).highScore = s.highScore ∧
      (GameJS.endGame s).stored = s.stored := by
    unfold GameJS.endGame
    dsimp only
    rw [if_neg h]
    exact ⟨rfl, rfl⟩
  unfold GameJS.collide
  split
  · exact he
  · split
    · exact he
    · exact ⟨rfl, rfl⟩

/-- C5: the high-score check runs on both triggers. In game.js, update's
eat branch updates and persists the high score whenever the score after the
hit beats it, and endGame (the Running to GameOver transition) performs the
same check again; app.js performs it at its gameOver transition. -/
theorem highscore_both_triggers :
    (∀ (dt : ℚ) (rand : ℕ → ℚ × ℚ × ℚ) (fuel : ℕ) (s : GameJS.GState)
        (f : GameJS.Food), s.food = some f →
      GameJS.distSqLt (s.headX + (appliedNext s).1 * (160 * dt),
        s.headY + (appliedNext s).2 * (160 * dt)) (f.x, f.y) (99 / 5) = true →
      s.score + f.points > s.highScore →
      (GameJS.update dt rand fuel s).highScore = s.score + f.points ∧
      (GameJS.update dt rand fuel s).stored =
        some (intToString (s.score + f.points))) ∧
    (∀ s : GameJS.GState, s.score > s.highScore →
      (GameJS.endGame s).gameOver = true ∧ (GameJS.endGame s).running = false ∧
      (GameJS.endGame s).highScore = s.score ∧
      (GameJS.endGame s).stored = some (intToString s.score)) ∧
    (∀ s : App.AState, s.score > s.highScore →
      (App.gameOver s).running = false ∧
      (App.gameOver s).highScore = s.score ∧
      (App.gameOver s).stored = some (intToString s.score)) := by
  refine ⟨?_, ?_, ?_⟩
  · intro dt rand fuel s f hf hd hs
    have hst := eatFood_hit rand fuel
      (GameJS.sampleTrim (GameJS.moveHead dt (GameJS.consumeDir s))) f hf hd hs
    have hng : ¬(GameJS.eatFood rand fuel
        (GameJS.sampleTrim (GameJS.moveHead dt (GameJS.consumeDir s)))).score >
        (GameJS.eatFood rand fuel
          (GameJS.sampleTrim (GameJS.moveHead dt (GameJS.consumeDir s)))).highScore := by
      rw [hst.1, hst.2.1]
      exact lt_irrefl _
    have hc := collide_keeps_high _ hng
    unfold GameJS.update
    exact ⟨hc.1.trans hst.2.1, hc.2.trans hst.2.2⟩
  · intro s h
    unfold GameJS.endGame
    dsimp only
    rw [if_pos h]
    exact ⟨rfl, rfl, rfl, rfl⟩
  · intro s h
    unfold App.gameOver
    dsimp only
    rw [if_pos h]
    exact ⟨rfl, rfl, rfl⟩

/-- C5 witness: the three triggers at concrete states — the eating frame of
ceG, a game.js endGame with score 3 against high score 0, and an app.js
gameOver with score 12 against high score 0. -/
theorem highscore_both_triggers_witness :
    ((GameJS.update 0 (fun _ => (0, 0, 0)) 0 ceG).highScore = 5 ∧
     (GameJS.update 0 (fun _ => (0, 0, 0)) 0 ceG).stored =
       some (intToString 5)) ∧
    ((GameJS.endGame { idleG with score := 3 }).gameOver = true ∧
     (GameJS.endGame { idleG with score := 3 }).running = false ∧
     (GameJS.endGame { idleG with score := 3 }).highScore = 3 ∧
     (GameJS.endGame { idleG with score := 3 }).stored =
       some (intToString 3)) ∧
    ((App.gameOver { idleA with score := 12 }).running = false ∧
     (App.gameOver { idleA with score := 12 }).highScore = 12 ∧
     (App.gameOver { idleA with score := 12 }).stored =
       some (intToString 12)) := by
  refine ⟨?_, ?_, ?_⟩
  · exact highscore_both_triggers.1 0 (fun _ => (0, 0, 0)) 0 ceG
      { x := 100, y := 100, color := "#2196f3", points := 5 } rfl
      (by norm_num [GameJS.distSqLt, appliedNext, ceG]) (by decide)
  · exact highscore_both_triggers.2.1 { idleG with score := 3 } (by decide)
  · exact highscore_both_triggers.2.2 { idleA with score := 12 } (by decide)

/-- The wrapped next head cell always lands back inside the grid when the
old head cell has nonnegative coordinates and the buffered direction is one
of the four unit vectors. -/
theorem nextHead_range (s : App.AState) (hd : Pos)
    (hw : 0 < s.width) (hr : 0 < s.rows) (hx : 0 ≤ hd.x) (hy : 0 ≤ hd.y)
    (hdir : s.nextDir = ⟨1, 0⟩ ∨ s.nextDir = ⟨-1, 0⟩ ∨ s.nextDir = ⟨0, 1⟩ ∨
      s.nextDir = ⟨0, -1⟩) :
    0 ≤ (App.nextHead s hd).x ∧ (App.nextHead s hd).x < s.width ∧
    0 ≤ (App.nextHead s hd).y ∧ (App.nextHead s hd).y < s.rows := by
  have hdx : -1 ≤ s.nextDir.x ∧ s.nextDir.x ≤ 1 ∧ -1 ≤ s.nextDir.y ∧
      s.nextDir.y ≤ 1 := by
    rcases hdir with h | h | h | h <;> rw [h] <;> norm_num
  obtain ⟨d1, d2, d3, d4⟩ := hdx
  unfold App.nextHead
  exact ⟨Int.tmod_nonneg _ (by omega), Int.tmod_lt_of_pos _ hw,
    Int.tmod_nonneg _ (by omega), Int.tmod_lt_of_pos _ hr⟩

/-- Grid dimensions survive the gameOver transition of app.js. -/
theorem app_gameOver_dims (s : App.AState) :
    (App.gameOver s).width = s.width ∧ (App.gameOver s).rows = s.rows := by
  refine ⟨?_, ?_⟩ <;>
  · unfold App.gameOver
    dsimp only
    split <;> rfl

/-- Grid dimensions survive maybeAddObstacle. -/
theorem maybeAddObstacle_dims (r : ℚ) (o : ℚ × ℚ) (s : App.AState) :
    (App.maybeAddObstacle r o s).width = s.width ∧
    (App.maybeAddObstacle r o s).rows = s.rows := by
  refine ⟨?_, ?_⟩ <;>
  · unfold App.maybeAddObstacle
    dsimp only
    split_ifs <;> rfl

/-- Grid dimensions survive a whole app.js tick. -/
theorem tick_dims (rand : ℕ → ℚ × ℚ) (rEat rObs : ℚ) (oPos : ℚ × ℚ)
    (s : App.AState) :
    (App.tick rand rEat rObs oPos s).width = s.width ∧
    (App.tick rand rEat rObs oPos s).rows = s.rows := by
  rcases hs : s.snake with _ | ⟨hd, rest⟩
  · simp [App.tick, hs]
  · simp only [App.tick, hs]
    split
    · exact app_gameOver_dims _
    · split
      · exact app_gameOver_dims _
      · split
        · split
          · exact maybeAddObstacle_dims _ _ _
          · exact ⟨rfl, rfl⟩
        · exact ⟨rfl, rfl⟩

/-- After one app.js tick the snake is either unchanged (a collision ended
the game) or its head cell is the wrapped next head cell. -/
theorem tick_snake (rand : ℕ → ℚ × ℚ) (rEat rObs : ℚ) (oPos : ℚ × ℚ)
    (s : App.AState) (hd : Pos) (rest : List Pos) (hs : s.snake = hd :: rest) :
    (App.tick rand rEat rObs oPos s).snake = hd :: rest ∨
    (App.tick rand rEat rObs oPos s).snake.head? =
      some (App.nextHead s hd) := by
  simp only [App.tick, hs]
  split
  · exact Or.inl (app_gameOver_fields _).2.2.1
  · split
    · exact Or.inl (app_gameOver_fields _).2.2.1
    · right
      split
      · split
        · rw [(maybeAddObstacle_fields _ _ _).1]
          rfl
        · rfl
      · rw [show ((App.nextHead s hd :: hd :: rest).dropLast) =
          App.nextHead s hd :: (hd :: rest).dropLast from List.dropLast_cons₂]
        rfl

/-- C8: with the wrap-around boundary of app.js, advancing one tick keeps
the head cell inside [0,width) × [0,rows): from any state whose head cell
is in range (as in every reachable state) and whose buffered direction is
one of the four unit vectors, the post-tick head cell is again in range. -/
theorem wrap_head_in_bounds (rand : ℕ → ℚ × ℚ) (rEat rObs : ℚ)
    (oPos : ℚ × ℚ) (s : App.AState) (hd : Pos) (rest : List Pos)
    (hs : s.snake = hd :: rest) (hw : 0 < s.width) (hr : 0 < s.rows)
    (hx1 : 0 ≤ hd.x) (hx2 : hd.x < s.width)
    (hy1 : 0 ≤ hd.y) (hy2 : hd.y < s.rows)
    (hdir : s.nextDir = ⟨1, 0⟩ ∨ s.nextDir = ⟨-1, 0⟩ ∨ s.nextDir = ⟨0, 1⟩ ∨
      s.nextDir = ⟨0, -1⟩) :
    headInRange (App.tick rand rEat rObs oPos s) := by
  obtain ⟨hb1, hb2, hb3, hb4⟩ := nextHead_range s hd hw hr hx1 hy1 hdir
  obtain ⟨hdw, hdr⟩ := tick_dims rand rEat rObs oPos s
  intro p hp
  rw [hdw, hdr]
  rcases tick_snake rand rEat rObs oPos s hd rest hs with h | h
  · rw [h, List.head?_cons, Option.mem_def, Option.some.injEq] at hp
    subst hp
    exact ⟨hx1, hx2, hy1, hy2⟩
  · rw [h, Option.mem_def, Option.some.injEq] at hp
    subst hp
    exact ⟨hb1, hb2, hb3, hb4⟩

/-- C8 witness: one tick from the concrete running app.js state keeps the
head inside the 28 × 28 grid. -/
theorem wrap_head_in_bounds_witness :
    headInRange (App.tick (fun _ => (2, 2)) 2 2 (2, 2) runningA) :=
  wrap_head_in_bounds (fun _ => (2, 2)) 2 2 (2, 2) runningA ⟨1, 1⟩ [⟨2, 1⟩]
    rfl (by decide) (by decide) (by decide) (by decide) (by decide)
    (by decide) (Or.inl rfl)
